import Mathlib

/-!
Verification of the signatures-sysvar module
(`sdk/program/src/sysvar/signatures.rs`): the encoder
`serialize_signatures` / `construct_signatures_data`, the decoder
`deserialize_signature`, and the checked accessor
`load_signature_at_checked`, shallowly embedded in Lean.

Bytes (`u8`) are modelled as `Fin 256`; byte buffers (`Vec<u8>` /
`&[u8]`) as `List Byte`; Rust `usize` indices as `Nat` (the source
guards the only arithmetic with bounds checks before it is reached,
which we prove); fallible functions return `Except`.
-/

namespace SolanaSignatures

/-- A byte, as in Rust `u8`. -/
abbrev Byte := Fin 256

/-- Rust `type Signature = [u8;64];` — a 64-byte value, modelled as a list of
bytes whose length is constrained to 64 by hypotheses where it matters. -/
abbrev Signature := List Byte

/-- The variants of `SanitizeError` (from `sanitize.rs`) relevant here:
the decoder only ever produces `IndexOutOfBounds`, but the enum has more
variants, which the accessor's error mapping must handle. -/
inductive SanitizeError where
  | IndexOutOfBounds
  | ValueOutOfBounds
  | InvalidValue
deriving DecidableEq, Repr

/-- The `ProgramError` variants reachable from this module. -/
inductive ProgramError where
  | UnsupportedSysvar
  | InvalidArgument
  | InvalidInstructionData
deriving DecidableEq, Repr

/-- Modelled from the spec: the well-known sysvar identity declared by
`declare_sysvar_id!("SysvarSignatures111111111111111111111111111", Signatures)`
(the macro and `Pubkey` live outside this module). The spec says to model
it as a fixed compile-time constant compared by equality, so we represent
a `Pubkey` by its base58 string form. -/
abbrev Pubkey := String

/-- Modelled from the spec: the fixed sysvar identity constant `ID`. -/
def ID : Pubkey := "SysvarSignatures111111111111111111111111111"

/-- Modelled from the spec: `check_id`, generated by `declare_sysvar_id!`,
is equality with the fixed constant `ID`. -/
def check_id (k : Pubkey) : Bool := k == ID

/-- Modelled from the spec: an `AccountInfo` as far as this module uses
it — a read-only byte-addressable handle paired with an identity key
(`account_info.rs` is outside this module). -/
structure AccountInfo where
  key : Pubkey
  data : List Byte

/-- Modelled from the spec: `try_borrow_data` acquires a scoped read-only
borrow of the account's bytes. The accessor is a stateless single-shot
query over an immutable snapshot, so the borrow yields the data. -/
def AccountInfo.try_borrow_data (a : AccountInfo) :
    Except ProgramError (List Byte) := Except.ok a.data

/-- Encoder `serialize_signatures`: push `signatures.len() as u8` (a single byte,
hence reduction mod 256), then each 64-byte signature in order. -/
def serialize_signatures (signatures : List Signature) : List Byte :=
  (⟨signatures.length % 256, by omega⟩ : Byte) :: signatures.flatten

/-- Source function `construct_signatures_data` just delegates to
`serialize_signatures`. -/
def construct_signatures_data (signatures : List Signature) : List Byte :=
  serialize_signatures signatures

/-- Decoder `deserialize_signature`: reject an empty buffer, read the count from
byte 0, require `index < count`, require the 64-byte slot
`[1 + index*64, 1 + index*64 + 64)` to lie inside the buffer, and return
an owned copy of that slot. (`end` is a Lean keyword, so it is named
`stop` here.) -/
def deserialize_signature (index : Nat) (data : List Byte) :
    Except SanitizeError Signature :=
  if data.isEmpty then
    Except.error SanitizeError.IndexOutOfBounds
  else
    let num_signatures := (data.headD 0).val
    if index ≥ num_signatures then
      Except.error SanitizeError.IndexOutOfBounds
    else
      let start := 1 + index * 64
      let stop := start + 64
      if stop > data.length then
        Except.error SanitizeError.IndexOutOfBounds
      else
        Except.ok ((data.drop start).take 64)

/-- Checked accessor `load_signature_at_checked`: gate on the sysvar
identity, borrow the
data, delegate to the decoder, and translate its internal error:
`IndexOutOfBounds ↦ InvalidArgument`, anything else
`↦ InvalidInstructionData`. -/
def load_signature_at_checked (index : Nat)
    (signature_sysvar_account_info : AccountInfo) :
    Except ProgramError Signature :=
  if ¬ check_id signature_sysvar_account_info.key then
    Except.error ProgramError.UnsupportedSysvar
  else
    match signature_sysvar_account_info.try_borrow_data with
    | Except.error e => Except.error e
    | Except.ok signature_sysvar =>
      match deserialize_signature index signature_sysvar with
      | Except.ok sig => Except.ok sig
      | Except.error SanitizeError.IndexOutOfBounds =>
          Except.error ProgramError.InvalidArgument
      | Except.error _ => Except.error ProgramError.InvalidInstructionData

/-- C4: for every index, `deserialize_signature` applied to a zero-length
buffer fails with `SanitizeError::IndexOutOfBounds`. -/
theorem deserialize_signature_empty_buffer (index : Nat) :
    deserialize_signature index ([] : List Byte) =
      Except.error SanitizeError.IndexOutOfBounds := rfl

/-- C2: for every index and every `AccountInfo` whose key differs from the
sysvar identity `ID`, `load_signature_at_checked` returns
`UnsupportedSysvar`, regardless of the account's data and the index. -/
theorem load_signature_at_checked_identity_gate (index : Nat)
    (a : AccountInfo) (h : a.key ≠ ID) :
    load_signature_at_checked index a =
      Except.error ProgramError.UnsupportedSysvar := by
  simp [load_signature_at_checked, check_id, h]

/-- Witness for C2: a concrete wrong-keyed account is rejected. -/
theorem load_signature_at_checked_identity_gate_witness :
    load_signature_at_checked 0 ⟨"NotTheSysvar", [3, 7]⟩ =
      Except.error ProgramError.UnsupportedSysvar :=
  load_signature_at_checked_identity_gate 0 ⟨"NotTheSysvar", [3, 7]⟩
    (by decide)

/-- The flattening of a list of 64-byte signatures has length
`64 * number of signatures`. -/
theorem flatten_length_of_sig (sigs : List Signature)
    (hall : ∀ s ∈ sigs, s.length = 64) :
    sigs.flatten.length = 64 * sigs.length := by
  induction sigs with
  | nil => simp
  | cons s rest ih =>
    have hs : s.length = 64 := hall s (List.mem_cons_self s rest)
    have hrest : ∀ t ∈ rest, t.length = 64 :=
      fun t ht => hall t (List.mem_cons_of_mem s ht)
    simp [List.flatten_cons, hs, ih hrest, Nat.mul_succ]
    omega

/-- Extracting the `i`-th 64-byte slot from the flattening of a list of
64-byte signatures yields the `i`-th signature. -/
theorem flatten_extract (sigs : List Signature) (i : Nat)
    (hall : ∀ s ∈ sigs, s.length = 64) (hi : i < sigs.length) :
    ((sigs.flatten.drop (i * 64)).take 64) = sigs.get ⟨i, hi⟩ := by
  induction sigs generalizing i with
  | nil => simp at hi
  | cons s rest ih =>
    have hs : s.length = 64 := hall s (List.mem_cons_self s rest)
    have hrest : ∀ t ∈ rest, t.length = 64 :=
      fun t ht => hall t (List.mem_cons_of_mem s ht)
    cases i with
    | zero =>
      simp only [Nat.zero_mul, List.drop_zero, List.flatten_cons,
        List.get_eq_getElem, List.getElem_cons_zero]
      rw [List.take_append_of_le_length (by omega), List.take_of_length_le (by omega)]
    | succ j =>
      have hj : j < rest.length := by simpa using hi
      have hdrop : (s ++ rest.flatten).drop ((j + 1) * 64) =
          rest.flatten.drop (j * 64) := by
        have h64 : (j + 1) * 64 = s.length + j * 64 := by omega
        rw [h64, List.drop_append]
      simp only [List.flatten_cons, hdrop, List.get_eq_getElem,
        List.getElem_cons_succ]
      exact ih j hrest hj

/-- Any error produced by `deserialize_signature` is `IndexOutOfBounds`:
all three failure branches return that variant. -/
theorem deserialize_signature_error_eq (data : List Byte) (index : Nat)
    (e : SanitizeError)
    (h : deserialize_signature index data = Except.error e) :
    e = SanitizeError.IndexOutOfBounds := by
  simp only [deserialize_signature] at h
  split_ifs at h <;> simp_all

/-- C1: round-trip — for every sequence of at most 255 signatures (each 64
bytes) and every index `i` below the sequence length, decoding index `i`
from the encoder's output succeeds and returns the `i`-th input
signature. -/
theorem deserialize_serialize_round_trip (sigs : List Signature) (i : Nat)
    (hn : sigs.length ≤ 255) (hall : ∀ s ∈ sigs, s.length = 64)
    (hi : i < sigs.length) :
    deserialize_signature i (serialize_signatures sigs) =
      Except.ok (sigs.get ⟨i, hi⟩) := by
  have hflat := flatten_length_of_sig sigs hall
  have hmod : sigs.length % 256 = sigs.length := Nat.mod_eq_of_lt (by omega)
  simp only [serialize_signatures, deserialize_signature, List.isEmpty_cons,
    Bool.false_eq_true, if_false, List.headD_cons, List.length_cons]
  rw [if_neg (by simp [hmod]; omega), if_neg (by simp [hflat]; omega)]
  have hdrop : ((⟨sigs.length % 256, by omega⟩ : Byte) ::
      sigs.flatten).drop (1 + i * 64) = sigs.flatten.drop (i * 64) := by
    have h1 : 1 + i * 64 = i * 64 + 1 := by omega
    rw [h1, List.drop_succ_cons]
  rw [hdrop, flatten_extract sigs i hall hi]

/-- Witness for C1: decoding index 1 from the encoding of two concrete
signatures returns the second one. -/
theorem deserialize_serialize_round_trip_witness :
    deserialize_signature 1
        (serialize_signatures
          [List.replicate 64 (0 : Byte), List.replicate 64 (1 : Byte)]) =
      Except.ok (List.replicate 64 (1 : Byte)) :=
  deserialize_serialize_round_trip
    [List.replicate 64 (0 : Byte), List.replicate 64 (1 : Byte)] 1
    (by decide) (by decide) (by decide)

/-- C3: upper bound — on any non-empty buffer, any index at or above the
count stored in the first byte makes `deserialize_signature` fail with
`IndexOutOfBounds`, and makes `load_signature_at_checked` on a
correctly-identified account holding that buffer fail with
`InvalidArgument`. -/
theorem deserialize_signature_upper_bound (data : List Byte) (index : Nat)
    (hne : data ≠ []) (hidx : (data.headD 0).val ≤ index) :
    deserialize_signature index data =
        Except.error SanitizeError.IndexOutOfBounds ∧
      load_signature_at_checked index ⟨ID, data⟩ =
        Except.error ProgramError.InvalidArgument := by
  have h1 : deserialize_signature index data =
      Except.error SanitizeError.IndexOutOfBounds := by
    simp only [deserialize_signature]
    rw [if_neg (by simp [hne]), if_pos hidx]
  exact ⟨h1, by
    simp [load_signature_at_checked, check_id, AccountInfo.try_borrow_data, h1]⟩

/-- Witness for C3: index 0 against the buffer `[0]` (count byte 0). -/
theorem deserialize_signature_upper_bound_witness :
    deserialize_signature 0 [(0 : Byte)] =
        Except.error SanitizeError.IndexOutOfBounds ∧
      load_signature_at_checked 0 ⟨ID, [(0 : Byte)]⟩ =
        Except.error ProgramError.InvalidArgument :=
  deserialize_signature_upper_bound [(0 : Byte)] 0 (by decide) (by decide)

/-- C5: truncated buffer — if the first byte declares a count and
`index < count` but the 64-byte slot for `index` extends past the buffer's
actual length, `deserialize_signature` fails with `IndexOutOfBounds`. -/
theorem deserialize_signature_truncated_buffer (data : List Byte)
    (index : Nat) (hne : data ≠ [])
    (hidx : index < (data.headD 0).val)
    (hlen : data.length < 1 + index * 64 + 64) :
    deserialize_signature index data =
      Except.error SanitizeError.IndexOutOfBounds := by
  simp only [deserialize_signature]
  rw [if_neg (by simp [hne]), if_neg (by omega), if_pos (by omega)]

/-- Witness for C5: buffer `[1]` declares one signature but holds no
signature bytes; index 0 is below the count yet fails. -/
theorem deserialize_signature_truncated_buffer_witness :
    deserialize_signature 0 [(1 : Byte)] =
      Except.error SanitizeError.IndexOutOfBounds :=
  deserialize_signature_truncated_buffer [(1 : Byte)] 0
    (by decide) (by decide) (by decide)

/-- C6: encoder format — for at most 255 signatures of 64 bytes each, the
encoder's output has length exactly `1 + 64*n`, its first byte is `n`,
and the rest is the concatenation of the inputs in order. (The encoder is
a total Lean function, hence deterministic and never failing.) -/
theorem serialize_signatures_format (sigs : List Signature)
    (hn : sigs.length ≤ 255) (hall : ∀ s ∈ sigs, s.length = 64) :
    (serialize_signatures sigs).length = 1 + 64 * sigs.length ∧
      ((serialize_signatures sigs).headD 0).val = sigs.length ∧
      (serialize_signatures sigs).tail = sigs.flatten := by
  have hflat := flatten_length_of_sig sigs hall
  refine ⟨?_, ?_, rfl⟩
  · simp [serialize_signatures, hflat]
    omega
  · simp [serialize_signatures, Nat.mod_eq_of_lt (show sigs.length < 256 by omega)]

/-- Witness for C6: the format theorem at a concrete one-signature input. -/
theorem serialize_signatures_format_witness :
    (serialize_signatures [List.replicate 64 (2 : Byte)]).length =
        1 + 64 * [List.replicate 64 (2 : Byte)].length ∧
      ((serialize_signatures [List.replicate 64 (2 : Byte)]).headD 0).val =
        [List.replicate 64 (2 : Byte)].length ∧
      (serialize_signatures [List.replicate 64 (2 : Byte)]).tail =
        [List.replicate 64 (2 : Byte)].flatten :=
  serialize_signatures_format [List.replicate 64 (2 : Byte)]
    (by decide) (by decide)

/-- C7: totality — on every buffer and index, `deserialize_signature`
either succeeds with a full 64-byte value (in which case the index is
below 255 and the accessed slot lies entirely inside the buffer, so the
arithmetic `1 + index*64 + 64` stays far below any machine bound and the
slice access is in range) or fails with a typed error; there is no other
outcome. -/
theorem deserialize_signature_total (data : List Byte) (index : Nat) :
    (∃ s, deserialize_signature index data = Except.ok s ∧ s.length = 64 ∧
        index < 255 ∧ 1 + index * 64 + 64 ≤ data.length) ∨
      ∃ e, deserialize_signature index data = Except.error e := by
  simp only [deserialize_signature]
  split_ifs with h1 h2 h3
  · exact Or.inr ⟨_, rfl⟩
  · exact Or.inr ⟨_, rfl⟩
  · exact Or.inr ⟨_, rfl⟩
  · refine Or.inl ⟨_, rfl, ?_, ?_, by omega⟩
    · have hub : (data.headD 0).val < 256 := (data.headD 0).isLt
      simp only [List.length_take, List.length_drop]
      omega
    · have hub : (data.headD 0).val < 256 := (data.headD 0).isLt
      omega

/-- C8: single failure kind — every failure of `deserialize_signature` is
`IndexOutOfBounds`, so the `InvalidInstructionData` branch of
`load_signature_at_checked`'s error mapping is unreachable and that
public error is never returned. -/
theorem load_signature_at_checked_no_invalid_instruction_data :
    (∀ (data : List Byte) (index : Nat) (e : SanitizeError),
        deserialize_signature index data = Except.error e →
        e = SanitizeError.IndexOutOfBounds) ∧
      ∀ (index : Nat) (a : AccountInfo),
        load_signature_at_checked index a ≠
          Except.error ProgramError.InvalidInstructionData := by
  refine ⟨deserialize_signature_error_eq, fun index a => ?_⟩
  by_cases hk : check_id a.key
  · cases hdes : deserialize_signature index a.data with
    | ok s =>
      simp [load_signature_at_checked, hk, AccountInfo.try_borrow_data, hdes]
    | error e =>
      have he := deserialize_signature_error_eq a.data index e hdes
      subst he
      simp [load_signature_at_checked, hk, AccountInfo.try_borrow_data, hdes]
  · simp [load_signature_at_checked, hk]

/-- Witness for C8: a concrete call (valid identity, out-of-range index)
does not produce `InvalidInstructionData`. -/
theorem load_signature_at_checked_no_invalid_instruction_data_witness :
    load_signature_at_checked 5 ⟨ID, [(2 : Byte), 2]⟩ ≠
      Except.error ProgramError.InvalidInstructionData :=
  load_signature_at_checked_no_invalid_instruction_data.2 5
    ⟨ID, [(2 : Byte), 2]⟩

/-- C9: count wrap — for more than 255 signatures (64 bytes each) the
encoder still succeeds: the single count byte holds `n mod 256` while all
`n` signatures are appended, so the output length is `1 + 64*n`. -/
theorem serialize_signatures_count_wrap (sigs : List Signature)
    (_hn : 255 < sigs.length) (hall : ∀ s ∈ sigs, s.length = 64) :
    (serialize_signatures sigs).length = 1 + 64 * sigs.length ∧
      ((serialize_signatures sigs).headD 0).val = sigs.length % 256 ∧
      (serialize_signatures sigs).tail = sigs.flatten := by
  have hflat := flatten_length_of_sig sigs hall
  refine ⟨?_, rfl, rfl⟩
  simp [serialize_signatures, hflat]
  omega

set_option maxRecDepth 10000 in
/-- Witness for C9: 256 concrete signatures; the count byte wraps to 0
while the buffer holds all `1 + 64*256` bytes. -/
theorem serialize_signatures_count_wrap_witness :
    (serialize_signatures
          (List.replicate 256 (List.replicate 64 (0 : Byte)))).length =
        1 + 64 * (List.replicate 256 (List.replicate 64 (0 : Byte))).length ∧
      ((serialize_signatures
          (List.replicate 256 (List.replicate 64 (0 : Byte)))).headD 0).val =
        (List.replicate 256 (List.replicate 64 (0 : Byte))).length % 256 ∧
      (serialize_signatures
          (List.replicate 256 (List.replicate 64 (0 : Byte)))).tail =
        (List.replicate 256 (List.replicate 64 (0 : Byte))).flatten :=
  serialize_signatures_count_wrap _ (by simp)
    (fun s hs => by rw [List.eq_of_mem_replicate hs]; simp)

/-- C10: success characterization — `deserialize_signature` succeeds iff
the buffer is non-empty, the index is below the count in byte 0, and the
slot `[1 + index*64, 1 + index*64 + 64)` fits in the buffer; on success
the result is exactly those 64 bytes of the buffer. Holds for arbitrary
buffers, not only encoder-produced ones. -/
theorem deserialize_signature_characterization (data : List Byte)
    (index : Nat) :
    ((∃ s, deserialize_signature index data = Except.ok s) ↔
        data ≠ [] ∧ index < (data.headD 0).val ∧
          1 + index * 64 + 64 ≤ data.length) ∧
      ∀ s, deserialize_signature index data = Except.ok s →
        s = (data.drop (1 + index * 64)).take 64 := by
  simp only [deserialize_signature]
  split_ifs with h1 h2 h3
  · rw [List.isEmpty_iff] at h1
    constructor
    · constructor
      · rintro ⟨s, hs⟩
        cases hs
      · rintro ⟨hne, -, -⟩
        exact (hne h1).elim
    · intro s hs
      cases hs
  · constructor
    · constructor
      · rintro ⟨s, hs⟩
        cases hs
      · rintro ⟨-, hlt, -⟩
        omega
    · intro s hs
      cases hs
  · constructor
    · constructor
      · rintro ⟨s, hs⟩
        cases hs
      · rintro ⟨-, -, hle⟩
        omega
    · intro s hs
      cases hs
  · constructor
    · constructor
      · rintro -
        refine ⟨fun hnil => h1 (by simp [hnil]), by omega, by omega⟩
      · rintro -
        exact ⟨_, rfl⟩
    · intro s hs
      injection hs with h
      exact h.symm

/-- Witness for C10: on the concrete buffer `1 :: 3,3,...,3` (count byte 1
followed by 64 bytes), decoding index 0 returns exactly bytes 1..65. -/
theorem deserialize_signature_characterization_witness :
    List.replicate 64 (3 : Byte) =
      ((((1 : Byte) :: List.replicate 64 (3 : Byte)).drop (1 + 0 * 64)).take 64) :=
  (deserialize_signature_characterization
      ((1 : Byte) :: List.replicate 64 (3 : Byte)) 0).2
    (List.replicate 64 (3 : Byte)) rfl

end SolanaSignatures
